import Mathlib

/-!
# StableWS2811: encode-and-transfer engine

A shallow embedding of `StableWS2811.cpp` / `StableWS2811.h`.

* Memory reached through the raw pointers `pixelBuf` and `spiBuf` is a total map from
  element index to element: the code performs no bounds check, so an index is just an offset.
* `uint8_t` values are `Fin 256`; `uint16_t` / `uint32_t` values are natural numbers, with an
  explicit reduction modulo `2 ^ 32` wherever the C arithmetic can wrap inside the range of its
  type (`num * 3` in the pixel accessors, `micros() - update_completed_at`).
* `int color` is an `Int`; `&` on it is the two's complement `Int.land`.
* Hardware register writes (SPI, DMA, DMAMUX, NVIC) are outside the model, except for the
  enable bit of DMA channel 1 in the timing model at the end of the definitions.
-/

/-! ## Constants of `StableWS2811.h` -/

/-- Byte type of the Pixel Store (`uint8_t`). -/
abbrev uint8_t := Fin 256

def WS2811_RGB : Nat := 0
def WS2811_RBG : Nat := 1
def WS2811_GRB : Nat := 2
def WS2811_GBR : Nat := 3
def WS2811_COLOR_MASK : Nat := 0x0f

def WS2811_800kHz : Nat := 0x00
def WS2811_400kHz : Nat := 0x10
def WS2811_FREQ_MASK : Nat := 0x10

/-! ## Peripheral word format -/

/-- Modelled from the spec: the board header defining `SPI_PUSHR_CONT` is not among the
sources. The value is the one the layout comment of `StableWS2811.cpp` documents for every
word written to `SPI0.PUSHR`: bit 31 set. -/
def SPI_PUSHR_CONT : Nat := 0x80000000

/-- Modelled from the spec: the board header defining `SPI_PUSHR_CTAS` is not among the
sources. It selects one of the transfer attribute registers in bits 28..30; the only use is
`SPI_PUSHR_CTAS(0)`, which the layout comment of `StableWS2811.cpp` documents as all clear. -/
def SPI_PUSHR_CTAS (n : Nat) : Nat := (n &&& 7) <<< 28

/-- `#define SPI_PUSHR_DATA(x) (SPI_PUSHR_CONT | SPI_PUSHR_CTAS(0) | (x))`. -/
def SPI_PUSHR_DATA (x : Nat) : Nat := SPI_PUSHR_CONT ||| SPI_PUSHR_CTAS 0 ||| x

/-- The table `led_spi_lookup[16]` (octal literals as in the source). -/
def led_spi_lookup : List Nat :=
  [0o4444, 0o4446, 0o4464, 0o4466, 0o4644, 0o4646, 0o4664, 0o4666,
   0o6444, 0o6446, 0o6464, 0o6466, 0o6644, 0o6646, 0o6664, 0o6666]

/-- Indexing `led_spi_lookup[i]`. -/
def led_spi_lookup_at (i : Nat) : Nat := led_spi_lookup.getD i 0

/-! ## Object state and file-level statics -/

/-- The fields of `class StableWS2811`. The two pointer fields are represented by the
contents of the memory they point to, indexed by element. -/
structure StableWS2811 where
  /-- Capacity given at construction (`uint16_t`). -/
  stripLenMax : Nat
  /-- Active length (`uint16_t`). -/
  stripLen : Nat
  /-- Transfer Buffer, `uint32_t *spiBuf`. -/
  spiBuf : Nat → Nat
  /-- Pixel Store, `uint8_t *pixelBuf`. -/
  pixelBuf : Nat → uint8_t
  /-- Configuration byte (`uint8_t`). -/
  config : Nat

/-- The `static` variables of `StableWS2811.cpp`. -/
structure Statics where
  /-- Source word of the idle channel, `static DMAMEM uint32_t zero`. -/
  zero : Nat
  /-- Flag `static volatile uint8_t update_in_progress`. -/
  update_in_progress : Nat
  /-- Timestamp `static uint32_t update_completed_at`. -/
  update_completed_at : Nat

/-- Initial values of the statics (`update_in_progress = 0`, `update_completed_at = 0`);
`zero` cannot be initialised and starts at an arbitrary `z`. -/
def Statics.initial (z : Nat) : Statics :=
  { zero := z, update_in_progress := 0, update_completed_at := 0 }

/-- Unsigned 32-bit subtraction `a - b` as C computes it on `uint32_t`. -/
def u32_sub (a b : Nat) : Nat := (((a : Int) - (b : Int)) % 4294967296).toNat

/-- Modelled from the spec: `micros()` belongs to the Arduino core, which is not among the
sources. It is the microsecond counter read at real time `now` (microseconds since start):
a `uint32_t`, so it wraps every `2 ^ 32` microseconds. -/
def micros (now : Nat) : Nat := now % 4294967296

namespace StableWS2811

/-- Constructor `StableWS2811::StableWS2811`. -/
def construct (stripLenMax : Nat) (spiBuf : Nat → Nat) (pixelBuf : Nat → uint8_t)
    (config : Nat) : StableWS2811 :=
  { stripLenMax := stripLenMax
    stripLen := stripLenMax
    spiBuf := spiBuf
    pixelBuf := pixelBuf
    config := config }

/-- `StableWS2811::setStripLen`. -/
def setStripLen (s : StableWS2811) (newStripLen : Nat) : StableWS2811 :=
  if newStripLen > s.stripLenMax then
    { s with stripLen := s.stripLenMax }
  else
    { s with stripLen := newStripLen }

/-- `StableWS2811::numPixels`. -/
def numPixels (s : StableWS2811) : Int := (s.stripLen : Int)

/-- `StableWS2811::color`. -/
def color (red green blue : uint8_t) : Int :=
  ((red.val <<< 16 ||| green.val <<< 8 ||| blue.val : Nat) : Int)

/-- `memset(buf, 0, n)` on the Pixel Store. -/
def memset_zero (buf : Nat → uint8_t) (n : Nat) : Nat → uint8_t :=
  fun k => if k < n then 0 else buf k

/-- The loop `for (i = 0; i < spi_bufsize_words; i++) spiBuf[i] = SPI_PUSHR_DATA(0);` of
`begin`, with `n` iterations left and loop variable `i`. -/
def begin_fill : Nat → Nat → (Nat → Nat) → (Nat → Nat)
  | 0, _, spiBuf => spiBuf
  | n + 1, i, spiBuf => begin_fill n (i + 1) (Function.update spiBuf i (SPI_PUSHR_DATA 0))

/-- The buffer set-up of `StableWS2811::begin` (the statements under `// Set up buffers`). -/
def begin (s : StableWS2811) (g : Statics) : StableWS2811 × Statics :=
  let pixel_bufsize_bytes := s.stripLen * 3
  let spi_bufsize_words := s.stripLen * 6
  ({ s with
      pixelBuf := memset_zero s.pixelBuf pixel_bufsize_bytes
      spiBuf := begin_fill spi_bufsize_words 0 s.spiBuf },
   { g with zero := SPI_PUSHR_DATA 0 })

/-- `StableWS2811::busy`, where `now_micros` is what `micros()` returns. -/
def busy (g : Statics) (now_micros : Nat) : Int :=
  if g.update_in_progress ≠ 0 then 1
  else if u32_sub now_micros g.update_completed_at < 50 then 1
  else 0

/-- Local state of the conversion loop of `show`: the two moving pointers (as offsets into
their buffers) and the Transfer Buffer contents. -/
structure EncodeState where
  pix : Nat
  spi : Nat
  spiBuf : Nat → Nat

/-- The loop of `show` that converts the pixel buffer into the SPI buffer, with `n`
iterations left. -/
def encode_loop (pixelBuf : Nat → uint8_t) : Nat → EncodeState → EncodeState
  | 0, st => st
  | n + 1, st =>
    let b := (pixelBuf st.pix).val
    let buf1 := Function.update st.spiBuf st.spi (SPI_PUSHR_DATA (led_spi_lookup_at (b >>> 4)))
    let buf2 := Function.update buf1 (st.spi + 1) (SPI_PUSHR_DATA (led_spi_lookup_at (b &&& 0xf)))
    encode_loop pixelBuf n { pix := st.pix + 1, spi := st.spi + 2, spiBuf := buf2 }

/-- State of the conversion loop of `show` when it has run to its end. -/
def show_encode_state (s : StableWS2811) : EncodeState :=
  encode_loop s.pixelBuf (s.stripLen * 3) { pix := 0, spi := 0, spiBuf := s.spiBuf }

/-- The encode step of `StableWS2811::show` (the statements under
`// Convert pixel buffer into SPI buffer`). -/
def show_encode (s : StableWS2811) : StableWS2811 :=
  { s with spiBuf := (show_encode_state s).spiBuf }

/-- The macro `SET_RGB(r,g,b)` of `setPixel`; `pix` is the offset of the pixel in the store. -/
def SET_RGB (pixelBuf : Nat → uint8_t) (pix : Nat) (color : Int) (r g b : Nat) :
    Nat → uint8_t :=
  let p1 := Function.update pixelBuf (pix + r)
    (Fin.ofNat ((Int.land color 0xFF0000) >>> 16).toNat)
  let p2 := Function.update p1 (pix + g)
    (Fin.ofNat ((Int.land color 0xFF00) >>> 8).toNat)
  Function.update p2 (pix + b) (Fin.ofNat (Int.land color 0xFF).toNat)

/-- `StableWS2811::setPixel(uint32_t num, int color)`. -/
def setPixel (s : StableWS2811) (num : Nat) (color : Int) : StableWS2811 :=
  let pix := (num * 3) % 4294967296
  let order := s.config &&& WS2811_COLOR_MASK
  if order = WS2811_RGB then { s with pixelBuf := SET_RGB s.pixelBuf pix color 0 1 2 }
  else if order = WS2811_RBG then { s with pixelBuf := SET_RGB s.pixelBuf pix color 0 2 1 }
  else if order = WS2811_GRB then { s with pixelBuf := SET_RGB s.pixelBuf pix color 1 0 2 }
  else if order = WS2811_GBR then { s with pixelBuf := SET_RGB s.pixelBuf pix color 1 2 0 }
  else s

/-- The macro `GET_RGB(r,g,b)` of `getPixel`. -/
def GET_RGB (pixelBuf : Nat → uint8_t) (pix : Nat) (r g b : Nat) : Int :=
  (((pixelBuf (pix + r)).val <<< 16 ||| (pixelBuf (pix + g)).val <<< 8 |||
    (pixelBuf (pix + b)).val : Nat) : Int)

/-- `StableWS2811::getPixel(uint32_t num)`. -/
def getPixel (s : StableWS2811) (num : Nat) : Int :=
  let pix := (num * 3) % 4294967296
  let order := s.config &&& WS2811_COLOR_MASK
  if order = WS2811_RGB then GET_RGB s.pixelBuf pix 0 1 2
  else if order = WS2811_RBG then GET_RGB s.pixelBuf pix 0 2 1
  else if order = WS2811_GRB then GET_RGB s.pixelBuf pix 1 0 2
  else if order = WS2811_GBR then GET_RGB s.pixelBuf pix 1 2 0
  else 0

end StableWS2811

/-- The interrupt handler `dma_ch1_isr`, where `now_micros` is what `micros()` returns. -/
def dma_ch1_isr (g : Statics) (now_micros : Nat) : Statics :=
  { g with update_completed_at := now_micros, update_in_progress := 0 }

/-! ## Timing model: `show` interleaved with the completion interrupt

`show` is split at its two busy-wait loops, so that clock ticks and the completion interrupt
can occur between any two of its steps. The interrupt is raised by DMA channel 1 when it
finishes its major loop (`DMA_TCD_CSR_INTMAJOR`); the channel then clears its own request
enable (`DMA_TCD_CSR_DREQ`) and stays stopped until `show` sets it again (`DMA_SERQ = 1`). -/

/-- Program points of the application thread. -/
inductive ShowPc where
  /-- Outside `show`. -/
  | idle
  /-- At `while (update_in_progress) continue;`. -/
  | wait_dma
  /-- At the conversion loop. -/
  | encode
  /-- At `while (micros() - update_completed_at < 50) continue;`. -/
  | wait_reset
  /-- At `noInterrupts(); update_in_progress = 1; ... DMA_SERQ = 1; ... interrupts();`. -/
  | arm
  deriving DecidableEq, Repr

/-- Whole-system state of the timing model. -/
structure Machine where
  dev : StableWS2811
  g : Statics
  /-- Real time in microseconds since start (never wraps). -/
  now : Nat
  pc : ShowPc
  /-- Request enable bit of DMA channel 1: a transfer is in flight. -/
  ch1_enabled : Bool
  /-- Real time at which `dma_ch1_isr` last ran, if it ever did (observer variable). -/
  completed : Option Nat

/-- What can happen next. -/
inductive Event where
  /-- The clock advances by `d` microseconds. -/
  | tick (d : Nat)
  /-- DMA channel 1 reaches the end of its major loop. -/
  | dma_done
  /-- The application thread executes its next step. -/
  | cpu

/-- One step of the application thread. -/
def Machine.cpu_step (m : Machine) : Machine :=
  match m.pc with
  | ShowPc.idle => { m with pc := ShowPc.wait_dma }
  | ShowPc.wait_dma =>
    if m.g.update_in_progress ≠ 0 then m else { m with pc := ShowPc.encode }
  | ShowPc.encode => { m with dev := m.dev.show_encode, pc := ShowPc.wait_reset }
  | ShowPc.wait_reset =>
    if u32_sub (micros m.now) m.g.update_completed_at < 50 then m
    else { m with pc := ShowPc.arm }
  | ShowPc.arm =>
    { m with g := { m.g with update_in_progress := 1 }, ch1_enabled := true, pc := ShowPc.idle }

/-- One step of the system. -/
def Machine.step (m : Machine) : Event → Machine
  | Event.tick d => { m with now := m.now + d }
  | Event.dma_done =>
    if m.ch1_enabled then
      { m with g := dma_ch1_isr m.g (micros m.now), ch1_enabled := false, completed := some m.now }
    else m
  | Event.cpu => m.cpu_step

/-- Start of the timing model at real time `t0`. -/
def Machine.start (dev : StableWS2811) (z t0 : Nat) : Machine :=
  { dev := dev, g := Statics.initial z, now := t0, pc := ShowPc.idle, ch1_enabled := false,
    completed := none }

/-- Run the system through a list of events. -/
def Machine.run (m : Machine) (evs : List Event) : Machine := evs.foldl Machine.step m

/-- Invariant of the timing model:
a running channel 1 implies the flag is set; between the first wait loop and the arming the
flag is clear; the stored timestamp is the counter value at the last completion, which is
not in the future; and at the arming point at least 50 microseconds have passed since the
last completion. -/
def Machine.Inv (m : Machine) : Prop :=
  (m.ch1_enabled = true → m.g.update_in_progress ≠ 0) ∧
  ((m.pc = ShowPc.encode ∨ m.pc = ShowPc.wait_reset ∨ m.pc = ShowPc.arm) →
    m.g.update_in_progress = 0) ∧
  (∀ tc, m.completed = some tc → tc ≤ m.now ∧ m.g.update_completed_at = micros tc) ∧
  (m.pc = ShowPc.arm → ∀ tc, m.completed = some tc → tc + 50 ≤ m.now)

/-! ## Theorems -/

/-- C1: for every 4-bit input `n`, `led_spi_lookup[n]` is below `2 ^ 12`, and its 3-bit group
number `k` counted from the least significant end (so group 3 is the most significant one)
is binary `110` when bit `k` of `n` is 1 and binary `100` when it is 0. -/
theorem led_spi_lookup_groups (n : Fin 16) :
    led_spi_lookup_at n.val < 2 ^ 12 ∧
    ∀ k : Fin 4, (led_spi_lookup_at n.val >>> (3 * k.val)) &&& 7 =
      if n.val.testBit k.val then 0b110 else 0b100 := by
  revert n
  decide

/-! ### The conversion loop of `show` -/

namespace StableWS2811

lemma encode_loop_cursor (pixelBuf : Nat → uint8_t) (n : Nat) (st : EncodeState) :
    (encode_loop pixelBuf n st).pix = st.pix + n ∧
    (encode_loop pixelBuf n st).spi = st.spi + 2 * n := by
  induction n generalizing st with
  | zero => simp [encode_loop]
  | succ n ih =>
    obtain ⟨h1, h2⟩ := ih
      { pix := st.pix + 1, spi := st.spi + 2,
        spiBuf := Function.update
          (Function.update st.spiBuf st.spi
            (SPI_PUSHR_DATA (led_spi_lookup_at ((pixelBuf st.pix).val >>> 4))))
          (st.spi + 1) (SPI_PUSHR_DATA (led_spi_lookup_at ((pixelBuf st.pix).val &&& 0xf))) }
    simp only [encode_loop]
    simp only at h1 h2
    constructor
    · rw [h1]; omega
    · rw [h2]; omega

lemma encode_loop_outside (pixelBuf : Nat → uint8_t) (n : Nat) (st : EncodeState) (k : Nat)
    (hk : k < st.spi ∨ st.spi + 2 * n ≤ k) :
    (encode_loop pixelBuf n st).spiBuf k = st.spiBuf k := by
  induction n generalizing st with
  | zero => simp [encode_loop]
  | succ n ih =>
    simp only [encode_loop]
    rw [ih]
    · simp only
      rw [Function.update_noteq (by omega), Function.update_noteq (by omega)]
    · simp only
      omega

lemma encode_loop_inside (pixelBuf : Nat → uint8_t) (n : Nat) (st : EncodeState) (j : Nat)
    (hj : j < n) :
    (encode_loop pixelBuf n st).spiBuf (st.spi + 2 * j) =
        SPI_PUSHR_DATA (led_spi_lookup_at ((pixelBuf (st.pix + j)).val >>> 4)) ∧
    (encode_loop pixelBuf n st).spiBuf (st.spi + 2 * j + 1) =
        SPI_PUSHR_DATA (led_spi_lookup_at ((pixelBuf (st.pix + j)).val &&& 0xf)) := by
  induction n generalizing st j with
  | zero => omega
  | succ n ih =>
    simp only [encode_loop]
    cases j with
    | zero =>
      constructor
      · rw [encode_loop_outside _ _ _ _ (by simp only; omega)]
        simp only [Nat.mul_zero, Nat.add_zero]
        rw [Function.update_noteq (by omega), Function.update_same]
      · rw [encode_loop_outside _ _ _ _ (by simp only; omega)]
        simp only [Nat.mul_zero, Nat.add_zero]
        rw [Function.update_same]
    | succ j =>
      have h := ih
        { pix := st.pix + 1, spi := st.spi + 2,
          spiBuf := Function.update
            (Function.update st.spiBuf st.spi
              (SPI_PUSHR_DATA (led_spi_lookup_at ((pixelBuf st.pix).val >>> 4))))
            (st.spi + 1) (SPI_PUSHR_DATA (led_spi_lookup_at ((pixelBuf st.pix).val &&& 0xf))) }
        j (by omega)
      simp only at h
      have e1 : st.spi + 2 * (j + 1) = st.spi + 2 + 2 * j := by omega
      have e2 : st.pix + (j + 1) = st.pix + 1 + j := by omega
      rw [e1, e2]
      exact h

/-- Every entry of the table, tagged, keeps the entry in its low 12 bits and has bit 31 as
its only other set bit. -/
lemma SPI_PUSHR_DATA_lookup (i : Fin 16) :
    SPI_PUSHR_DATA (led_spi_lookup_at i.val) % 2 ^ 12 = led_spi_lookup_at i.val ∧
    SPI_PUSHR_DATA (led_spi_lookup_at i.val) >>> 12 = 2 ^ 19 := by
  revert i
  decide

lemma byte_high_nibble_lt (b : uint8_t) : b.val >>> 4 < 16 := by
  have := b.isLt
  rw [Nat.shiftRight_eq_div_pow]
  omega

lemma byte_low_nibble_lt (b : uint8_t) : b.val &&& 0xf < 16 :=
  Nat.and_lt_two_pow b.val (show 0xf < 2 ^ 4 by decide)

end StableWS2811

/-! ### Claims about the encode step of `show` -/

/-- C2: after the encode step of `show`, for every byte index `j` below `3 * stripLen`, word
`2 * j` of the Transfer Buffer is the control tag `SPI_PUSHR_CONT | SPI_PUSHR_CTAS(0)` OR-ed
with `led_spi_lookup[pixelBuf[j] >> 4]` and word `2 * j + 1` is the tag OR-ed with
`led_spi_lookup[pixelBuf[j] & 0xf]`; the tag has bit 31 as its only set bit from bit 12
upwards, and the low 12 bits of each of the two words are the table entry of its nibble. -/
theorem show_encode_words (s : StableWS2811) (j : Nat) (hj : j < 3 * s.stripLen) :
    s.show_encode.spiBuf (2 * j) =
      (SPI_PUSHR_CONT ||| SPI_PUSHR_CTAS 0) |||
        led_spi_lookup_at ((s.pixelBuf j).val >>> 4) ∧
    s.show_encode.spiBuf (2 * j + 1) =
      (SPI_PUSHR_CONT ||| SPI_PUSHR_CTAS 0) |||
        led_spi_lookup_at ((s.pixelBuf j).val &&& 0xf) ∧
    (SPI_PUSHR_CONT ||| SPI_PUSHR_CTAS 0) >>> 12 = 2 ^ 19 ∧
    s.show_encode.spiBuf (2 * j) % 2 ^ 12 = led_spi_lookup_at ((s.pixelBuf j).val >>> 4) ∧
    s.show_encode.spiBuf (2 * j + 1) % 2 ^ 12 =
      led_spi_lookup_at ((s.pixelBuf j).val &&& 0xf) ∧
    s.show_encode.spiBuf (2 * j) >>> 12 = 2 ^ 19 ∧
    s.show_encode.spiBuf (2 * j + 1) >>> 12 = 2 ^ 19 := by
  have h := StableWS2811.encode_loop_inside s.pixelBuf (s.stripLen * 3)
    { pix := 0, spi := 0, spiBuf := s.spiBuf } j (by omega)
  simp only [Nat.zero_add] at h
  obtain ⟨h1, h2⟩ := h
  have hi := StableWS2811.SPI_PUSHR_DATA_lookup
    ⟨(s.pixelBuf j).val >>> 4, StableWS2811.byte_high_nibble_lt _⟩
  have lo := StableWS2811.SPI_PUSHR_DATA_lookup
    ⟨(s.pixelBuf j).val &&& 0xf, StableWS2811.byte_low_nibble_lt _⟩
  simp only at hi lo
  have e1 : s.show_encode.spiBuf (2 * j) =
      SPI_PUSHR_DATA (led_spi_lookup_at ((s.pixelBuf j).val >>> 4)) := h1
  have e2 : s.show_encode.spiBuf (2 * j + 1) =
      SPI_PUSHR_DATA (led_spi_lookup_at ((s.pixelBuf j).val &&& 0xf)) := h2
  refine ⟨e1, e2, by decide, ?_, ?_, ?_, ?_⟩
  · rw [e1]; exact hi.1
  · rw [e2]; exact lo.1
  · rw [e1]; exact hi.2
  · rw [e2]; exact lo.2

/-- Witness for C2: a strip of one pixel whose first byte is `0xA5`. -/
theorem show_encode_words_witness :
    (0 : Nat) < 3 * 1 ∧
    (StableWS2811.construct 1 (fun _ => 0) (fun _ => 0xA5) WS2811_GRB).show_encode.spiBuf 0
      % 2 ^ 12 = 0o6464 ∧
    (StableWS2811.construct 1 (fun _ => 0) (fun _ => 0xA5) WS2811_GRB).show_encode.spiBuf 1
      % 2 ^ 12 = 0o4646 :=
  ⟨by decide,
   (show_encode_words (StableWS2811.construct 1 (fun _ => 0) (fun _ => 0xA5) WS2811_GRB) 0
      (by decide)).2.2.2.1,
   (show_encode_words (StableWS2811.construct 1 (fun _ => 0) (fun _ => 0xA5) WS2811_GRB) 0
      (by decide)).2.2.2.2.1⟩

/-- C5: the encode step of `show` with active length `N = stripLen` consumes `3 * N` Pixel
Store bytes and `6 * N` Transfer Buffer words; it leaves every Transfer Buffer word with index
at least `6 * N` and the whole Pixel Store unchanged; and the words below `6 * N` that it
produces are all overwritten and depend on the Pixel Store bytes below `3 * N` only (two
runs that agree on those bytes and on `N` produce the same words, whatever the other bytes
and the previous Transfer Buffer contents are). -/
theorem show_encode_footprint (s : StableWS2811) :
    (StableWS2811.show_encode_state s).spi = 6 * s.stripLen ∧
    (StableWS2811.show_encode_state s).pix = 3 * s.stripLen ∧
    (∀ k, 6 * s.stripLen ≤ k → s.show_encode.spiBuf k = s.spiBuf k) ∧
    s.show_encode.pixelBuf = s.pixelBuf ∧
    (∀ s' : StableWS2811, s'.stripLen = s.stripLen →
      (∀ j, j < 3 * s.stripLen → s'.pixelBuf j = s.pixelBuf j) →
      ∀ k, k < 6 * s.stripLen → s'.show_encode.spiBuf k = s.show_encode.spiBuf k) := by
  have hc := StableWS2811.encode_loop_cursor s.pixelBuf (s.stripLen * 3)
    { pix := 0, spi := 0, spiBuf := s.spiBuf }
  refine ⟨?_, ?_, ?_, rfl, ?_⟩
  · show (StableWS2811.encode_loop _ _ _).spi = _
    rw [hc.2]; simp only; omega
  · show (StableWS2811.encode_loop _ _ _).pix = _
    rw [hc.1]; simp only; omega
  · intro k hk
    exact StableWS2811.encode_loop_outside s.pixelBuf (s.stripLen * 3)
      { pix := 0, spi := 0, spiBuf := s.spiBuf } k (by simp only; omega)
  · intro s' hlen hpix k hk
    have hj : k / 2 < s.stripLen * 3 := by omega
    have h := StableWS2811.encode_loop_inside s.pixelBuf (s.stripLen * 3)
      { pix := 0, spi := 0, spiBuf := s.spiBuf } (k / 2) hj
    have h' := StableWS2811.encode_loop_inside s'.pixelBuf (s'.stripLen * 3)
      { pix := 0, spi := 0, spiBuf := s'.spiBuf } (k / 2) (by omega)
    simp only [Nat.zero_add] at h h'
    rw [hpix (k / 2) (by omega)] at h'
    rcases Nat.mod_two_eq_zero_or_one k with hk0 | hk1
    · have e : k = 2 * (k / 2) := by omega
      rw [e]
      exact h'.1.trans h.1.symm
    · have e : k = 2 * (k / 2) + 1 := by omega
      rw [e]
      exact h'.2.trans h.2.symm

/-- Witness for C5: capacity 3, active length 3, pixel 0 set to `0x112233` under GRB. The
encode step consumes 18 words, leaves word 18 alone, and overwrites word 0 with the same
value whatever the Transfer Buffer held before. -/
theorem show_encode_footprint_witness :
    (StableWS2811.show_encode_state
      ((StableWS2811.construct 3 (fun _ => 7) (fun _ => 0) WS2811_GRB).setPixel 0 0x112233)).spi
      = 18 ∧
    ((StableWS2811.construct 3 (fun _ => 7) (fun _ => 0) WS2811_GRB).setPixel 0
      0x112233).show_encode.spiBuf 18 = 7 ∧
    ((StableWS2811.construct 3 (fun _ => 9) (fun _ => 0) WS2811_GRB).setPixel 0
      0x112233).show_encode.spiBuf 0 =
    ((StableWS2811.construct 3 (fun _ => 7) (fun _ => 0) WS2811_GRB).setPixel 0
      0x112233).show_encode.spiBuf 0 :=
  ⟨(show_encode_footprint
      ((StableWS2811.construct 3 (fun _ => 7) (fun _ => 0) WS2811_GRB).setPixel 0 0x112233)).1,
   (show_encode_footprint
      ((StableWS2811.construct 3 (fun _ => 7) (fun _ => 0) WS2811_GRB).setPixel 0
        0x112233)).2.2.1 18 (by decide),
   (show_encode_footprint
      ((StableWS2811.construct 3 (fun _ => 7) (fun _ => 0) WS2811_GRB).setPixel 0
        0x112233)).2.2.2.2
      ((StableWS2811.construct 3 (fun _ => 9) (fun _ => 0) WS2811_GRB).setPixel 0 0x112233)
      rfl (fun _ _ => rfl) 0 (by decide)⟩

/-! ### Channel extraction and packing -/

namespace StableWS2811

lemma and_mask_shiftRight (n k w : Nat) :
    (n &&& ((2 ^ w - 1) <<< k)) >>> k = (n >>> k) % 2 ^ w := by
  apply Nat.eq_of_testBit_eq
  intro i
  simp only [Nat.testBit_shiftRight, Nat.testBit_and, Nat.testBit_shiftLeft,
    Nat.testBit_mod_two_pow, Nat.testBit_two_pow_sub_one]
  have : k + i - k = i := by omega
  rw [this]
  have h2 : decide (k + i ≥ k) = true := by simp
  rw [h2]
  cases n.testBit (k + i) <;> cases decide (i < w) <;> rfl

lemma pack_eq (r g b : Nat) (hg : g < 256) (hb : b < 256) :
    r <<< 16 ||| g <<< 8 ||| b = r * 65536 + g * 256 + b := by
  have h1 : g <<< 8 ||| b = g * 256 + b := by
    have := Nat.mul_add_lt_is_or (i := 8) (b := b) (by omega) g
    rw [Nat.shiftLeft_eq, Nat.mul_comm g, ← this, Nat.mul_comm]
  rw [Nat.or_assoc, h1]
  have := Nat.mul_add_lt_is_or (i := 16) (b := g * 256 + b) (by omega) r
  rw [Nat.shiftLeft_eq, Nat.mul_comm r, ← this]
  omega

lemma chan_red (n : Nat) :
    ((Int.land (n : Int) 0xFF0000) >>> 16).toNat = n / 65536 % 256 := by
  have h := and_mask_shiftRight n 16 8
  have e : (Int.land (n : Int) 0xFF0000) >>> 16 = (((n &&& 0xFF0000) >>> 16 : Nat) : Int) := rfl
  rw [e, Int.toNat_ofNat]
  rw [Nat.shiftRight_eq_div_pow n] at h
  exact h

lemma chan_green (n : Nat) :
    ((Int.land (n : Int) 0xFF00) >>> 8).toNat = n / 256 % 256 := by
  have h := and_mask_shiftRight n 8 8
  have e : (Int.land (n : Int) 0xFF00) >>> 8 = (((n &&& 0xFF00) >>> 8 : Nat) : Int) := rfl
  rw [e, Int.toNat_ofNat]
  rw [Nat.shiftRight_eq_div_pow n] at h
  exact h

lemma chan_blue (n : Nat) :
    (Int.land (n : Int) 0xFF).toNat = n % 256 := by
  have h := Nat.and_pow_two_sub_one_eq_mod n 8
  have e : Int.land (n : Int) 0xFF = ((n &&& 0xFF : Nat) : Int) := rfl
  rw [e, Int.toNat_ofNat]
  exact h

lemma byte_ofNat_val (x : Nat) : ((Fin.ofNat x : uint8_t)).val = x % 256 := rfl

/-- The three bytes that `SET_RGB` leaves at the offsets `pix + r`, `pix + g`, `pix + b`,
for a colour that is a natural number. -/
lemma SET_RGB_read (pixelBuf : Nat → uint8_t) (pix n r g b : Nat)
    (hrg : r ≠ g) (hrb : r ≠ b) (hgb : g ≠ b) :
    (SET_RGB pixelBuf pix (n : Int) r g b (pix + r)).val = n / 65536 % 256 ∧
    (SET_RGB pixelBuf pix (n : Int) r g b (pix + g)).val = n / 256 % 256 ∧
    (SET_RGB pixelBuf pix (n : Int) r g b (pix + b)).val = n % 256 := by
  unfold SET_RGB
  refine ⟨?_, ?_, ?_⟩
  · rw [Function.update_noteq (by omega), Function.update_noteq (by omega),
      Function.update_same, byte_ofNat_val, chan_red]
    omega
  · rw [Function.update_noteq (by omega), Function.update_same, byte_ofNat_val, chan_green]
    omega
  · rw [Function.update_same, byte_ofNat_val, chan_blue]
    omega

/-- Reading back, with `GET_RGB`, what `SET_RGB` wrote with the same offsets. -/
lemma GET_RGB_SET_RGB (pixelBuf : Nat → uint8_t) (pix n r g b : Nat) (hn : n < 2 ^ 24)
    (hrg : r ≠ g) (hrb : r ≠ b) (hgb : g ≠ b) :
    GET_RGB (SET_RGB pixelBuf pix (n : Int) r g b) pix r g b = (n : Int) := by
  obtain ⟨h1, h2, h3⟩ := SET_RGB_read pixelBuf pix n r g b hrg hrb hgb
  unfold GET_RGB
  rw [h1, h2, h3, pack_eq _ _ _ (by omega) (by omega)]
  congr 1
  omega

end StableWS2811

/-! ### The switch on the channel order -/

namespace StableWS2811

lemma setPixel_config (s : StableWS2811) (i : Nat) (c : Int) :
    (s.setPixel i c).config = s.config := by
  unfold setPixel
  simp only
  split_ifs <;> rfl

lemma setPixel_RGB (s : StableWS2811) (i : Nat) (c : Int)
    (h : s.config &&& WS2811_COLOR_MASK = WS2811_RGB) :
    (s.setPixel i c).pixelBuf = SET_RGB s.pixelBuf (i * 3 % 4294967296) c 0 1 2 := by
  unfold setPixel
  simp only
  rw [if_pos h]

lemma setPixel_RBG (s : StableWS2811) (i : Nat) (c : Int)
    (h : s.config &&& WS2811_COLOR_MASK = WS2811_RBG) :
    (s.setPixel i c).pixelBuf = SET_RGB s.pixelBuf (i * 3 % 4294967296) c 0 2 1 := by
  unfold setPixel
  simp only
  rw [if_neg (by rw [h]; decide), if_pos h]

lemma setPixel_GRB (s : StableWS2811) (i : Nat) (c : Int)
    (h : s.config &&& WS2811_COLOR_MASK = WS2811_GRB) :
    (s.setPixel i c).pixelBuf = SET_RGB s.pixelBuf (i * 3 % 4294967296) c 1 0 2 := by
  unfold setPixel
  simp only
  rw [if_neg (by rw [h]; decide), if_neg (by rw [h]; decide), if_pos h]

lemma setPixel_GBR (s : StableWS2811) (i : Nat) (c : Int)
    (h : s.config &&& WS2811_COLOR_MASK = WS2811_GBR) :
    (s.setPixel i c).pixelBuf = SET_RGB s.pixelBuf (i * 3 % 4294967296) c 1 2 0 := by
  unfold setPixel
  simp only
  rw [if_neg (by rw [h]; decide), if_neg (by rw [h]; decide), if_neg (by rw [h]; decide),
    if_pos h]

lemma setPixel_other (s : StableWS2811) (i : Nat) (c : Int)
    (h : s.config &&& WS2811_COLOR_MASK ∉ [WS2811_RGB, WS2811_RBG, WS2811_GRB, WS2811_GBR]) :
    s.setPixel i c = s := by
  simp only [List.mem_cons, List.mem_singleton, List.not_mem_nil, or_false, not_or] at h
  unfold setPixel
  simp only
  rw [if_neg h.1, if_neg h.2.1, if_neg h.2.2.1, if_neg h.2.2.2]

lemma getPixel_RGB (s : StableWS2811) (i : Nat)
    (h : s.config &&& WS2811_COLOR_MASK = WS2811_RGB) :
    s.getPixel i = GET_RGB s.pixelBuf (i * 3 % 4294967296) 0 1 2 := by
  unfold getPixel
  simp only
  rw [if_pos h]

lemma getPixel_RBG (s : StableWS2811) (i : Nat)
    (h : s.config &&& WS2811_COLOR_MASK = WS2811_RBG) :
    s.getPixel i = GET_RGB s.pixelBuf (i * 3 % 4294967296) 0 2 1 := by
  unfold getPixel
  simp only
  rw [if_neg (by rw [h]; decide), if_pos h]

lemma getPixel_GRB (s : StableWS2811) (i : Nat)
    (h : s.config &&& WS2811_COLOR_MASK = WS2811_GRB) :
    s.getPixel i = GET_RGB s.pixelBuf (i * 3 % 4294967296) 1 0 2 := by
  unfold getPixel
  simp only
  rw [if_neg (by rw [h]; decide), if_neg (by rw [h]; decide), if_pos h]

lemma getPixel_GBR (s : StableWS2811) (i : Nat)
    (h : s.config &&& WS2811_COLOR_MASK = WS2811_GBR) :
    s.getPixel i = GET_RGB s.pixelBuf (i * 3 % 4294967296) 1 2 0 := by
  unfold getPixel
  simp only
  rw [if_neg (by rw [h]; decide), if_neg (by rw [h]; decide), if_neg (by rw [h]; decide),
    if_pos h]

lemma getPixel_other (s : StableWS2811) (i : Nat)
    (h : s.config &&& WS2811_COLOR_MASK ∉ [WS2811_RGB, WS2811_RBG, WS2811_GRB, WS2811_GBR]) :
    s.getPixel i = 0 := by
  simp only [List.mem_cons, List.mem_singleton, List.not_mem_nil, or_false, not_or] at h
  unfold getPixel
  simp only
  rw [if_neg h.1, if_neg h.2.1, if_neg h.2.2.1, if_neg h.2.2.2]

/-- Round trip for a configuration whose channel-order field is one of the four orders. -/
lemma getPixel_setPixel_order (s : StableWS2811) (i n : Nat) (hn : n < 2 ^ 24)
    (h : s.config &&& WS2811_COLOR_MASK ∈ [WS2811_RGB, WS2811_RBG, WS2811_GRB, WS2811_GBR]) :
    (s.setPixel i (n : Int)).getPixel i = (n : Int) := by
  simp only [List.mem_cons, List.mem_singleton, List.not_mem_nil, or_false] at h
  have hc := setPixel_config s i (n : Int)
  rcases h with h | h | h | h
  · rw [getPixel_RGB _ _ (by rw [hc]; exact h), setPixel_RGB _ _ _ h]
    exact GET_RGB_SET_RGB _ _ _ _ _ _ hn (by decide) (by decide) (by decide)
  · rw [getPixel_RBG _ _ (by rw [hc]; exact h), setPixel_RBG _ _ _ h]
    exact GET_RGB_SET_RGB _ _ _ _ _ _ hn (by decide) (by decide) (by decide)
  · rw [getPixel_GRB _ _ (by rw [hc]; exact h), setPixel_GRB _ _ _ h]
    exact GET_RGB_SET_RGB _ _ _ _ _ _ hn (by decide) (by decide) (by decide)
  · rw [getPixel_GBR _ _ (by rw [hc]; exact h), setPixel_GBR _ _ _ h]
    exact GET_RGB_SET_RGB _ _ _ _ _ _ hn (by decide) (by decide) (by decide)

end StableWS2811

/-! ### Claims about the pixel accessors -/

/-- C3: under each of the four channel orders, combined with either bit-rate class in the
configuration byte, `getPixel(i)` right after `setPixel(i, c)` returns `c`, for every pixel
index `i` and every packed colour `0 ≤ c < 2 ^ 24`. -/
theorem getPixel_setPixel (s : StableWS2811) (order freq : Nat)
    (horder : order ∈ [WS2811_RGB, WS2811_RBG, WS2811_GRB, WS2811_GBR])
    (hfreq : freq ∈ [WS2811_800kHz, WS2811_400kHz])
    (hconfig : s.config = order ||| freq)
    (i : Nat) (c : Int) (h0 : 0 ≤ c) (h24 : c < 2 ^ 24) :
    (s.setPixel i c).getPixel i = c := by
  obtain ⟨n, rfl⟩ := Int.eq_ofNat_of_zero_le h0
  have hn : n < 2 ^ 24 := by exact_mod_cast h24
  apply StableWS2811.getPixel_setPixel_order s i n hn
  rw [hconfig]
  simp only [List.mem_cons, List.mem_singleton, List.not_mem_nil, or_false] at horder hfreq
  rcases horder with rfl | rfl | rfl | rfl <;> rcases hfreq with rfl | rfl <;> decide

/-- Witness for C3: GRB order at 400 kHz, pixel 5, colour `0xC0FFEE`. -/
theorem getPixel_setPixel_witness :
    (((StableWS2811.construct 8 (fun _ => 0) (fun _ => 0)
        (WS2811_GRB ||| WS2811_400kHz)).setPixel 5 0xC0FFEE).getPixel 5 = 0xC0FFEE) :=
  getPixel_setPixel
    (StableWS2811.construct 8 (fun _ => 0) (fun _ => 0) (WS2811_GRB ||| WS2811_400kHz))
    WS2811_GRB WS2811_400kHz (by decide) (by decide) rfl 5 0xC0FFEE (by decide) (by decide)

/-- The bytes that `setPixel(i, R << 16 | G << 8 | B)` leaves at the offsets `3 * i`,
`3 * i + 1`, `3 * i + 2` of the Pixel Store, for an index whose byte offset is representable
in the 32-bit index arithmetic: `(R, G, B)` under RGB, `(R, B, G)` under RBG, `(G, R, B)`
under GRB, and `(B, R, G)` under GBR. -/
lemma setPixel_stored_bytes (s : StableWS2811) (i : Nat) (hi : 3 * i < 2 ^ 32)
    (R G B : uint8_t) :
    (s.config &&& WS2811_COLOR_MASK = WS2811_RGB →
      (s.setPixel i ((R.val <<< 16 ||| G.val <<< 8 ||| B.val : Nat) : Int)).pixelBuf (3 * i) = R ∧
      (s.setPixel i ((R.val <<< 16 ||| G.val <<< 8 ||| B.val : Nat) : Int)).pixelBuf (3 * i + 1)
        = G ∧
      (s.setPixel i ((R.val <<< 16 ||| G.val <<< 8 ||| B.val : Nat) : Int)).pixelBuf (3 * i + 2)
        = B) ∧
    (s.config &&& WS2811_COLOR_MASK = WS2811_RBG →
      (s.setPixel i ((R.val <<< 16 ||| G.val <<< 8 ||| B.val : Nat) : Int)).pixelBuf (3 * i) = R ∧
      (s.setPixel i ((R.val <<< 16 ||| G.val <<< 8 ||| B.val : Nat) : Int)).pixelBuf (3 * i + 1)
        = B ∧
      (s.setPixel i ((R.val <<< 16 ||| G.val <<< 8 ||| B.val : Nat) : Int)).pixelBuf (3 * i + 2)
        = G) ∧
    (s.config &&& WS2811_COLOR_MASK = WS2811_GRB →
      (s.setPixel i ((R.val <<< 16 ||| G.val <<< 8 ||| B.val : Nat) : Int)).pixelBuf (3 * i) = G ∧
      (s.setPixel i ((R.val <<< 16 ||| G.val <<< 8 ||| B.val : Nat) : Int)).pixelBuf (3 * i + 1)
        = R ∧
      (s.setPixel i ((R.val <<< 16 ||| G.val <<< 8 ||| B.val : Nat) : Int)).pixelBuf (3 * i + 2)
        = B) ∧
    (s.config &&& WS2811_COLOR_MASK = WS2811_GBR →
      (s.setPixel i ((R.val <<< 16 ||| G.val <<< 8 ||| B.val : Nat) : Int)).pixelBuf (3 * i) = B ∧
      (s.setPixel i ((R.val <<< 16 ||| G.val <<< 8 ||| B.val : Nat) : Int)).pixelBuf (3 * i + 1)
        = R ∧
      (s.setPixel i ((R.val <<< 16 ||| G.val <<< 8 ||| B.val : Nat) : Int)).pixelBuf (3 * i + 2)
        = G) := by
  have hR := R.isLt
  have hG := G.isLt
  have hB := B.isLt
  have hp : i * 3 % 4294967296 = 3 * i := by omega
  have hn := StableWS2811.pack_eq R.val G.val B.val hG hB
  have rd := fun r g b hrg hrb hgb =>
    StableWS2811.SET_RGB_read s.pixelBuf (3 * i) (R.val <<< 16 ||| G.val <<< 8 ||| B.val)
      r g b hrg hrb hgb
  have e0 : 3 * i + 0 = 3 * i := rfl
  refine ⟨fun h => ?_, fun h => ?_, fun h => ?_, fun h => ?_⟩
  · rw [StableWS2811.setPixel_RGB _ _ _ h, hp]
    obtain ⟨h1, h2, h3⟩ := rd 0 1 2 (by decide) (by decide) (by decide)
    rw [e0] at h1
    exact ⟨Fin.ext (by rw [h1]; omega), Fin.ext (by rw [h2]; omega),
      Fin.ext (by rw [h3]; omega)⟩
  · rw [StableWS2811.setPixel_RBG _ _ _ h, hp]
    obtain ⟨h1, h2, h3⟩ := rd 0 2 1 (by decide) (by decide) (by decide)
    rw [e0] at h1
    exact ⟨Fin.ext (by rw [h1]; omega), Fin.ext (by rw [h3]; omega),
      Fin.ext (by rw [h2]; omega)⟩
  · rw [StableWS2811.setPixel_GRB _ _ _ h, hp]
    obtain ⟨h1, h2, h3⟩ := rd 1 0 2 (by decide) (by decide) (by decide)
    rw [e0] at h2
    exact ⟨Fin.ext (by rw [h2]; omega), Fin.ext (by rw [h1]; omega),
      Fin.ext (by rw [h3]; omega)⟩
  · rw [StableWS2811.setPixel_GBR _ _ _ h, hp]
    obtain ⟨h1, h2, h3⟩ := rd 1 2 0 (by decide) (by decide) (by decide)
    rw [e0] at h3
    exact ⟨Fin.ext (by rw [h3]; omega), Fin.ext (by rw [h1]; omega),
      Fin.ext (by rw [h2]; omega)⟩

/-- C4, at the input where the code departs from it: under GRB, `setPixel(0, 0x112233)`
stores `0x22, 0x11, 0x33` at the offsets 0, 1, 2, as the name of the order says; under GBR
it stores `0x33, 0x11, 0x22`, that is `(B, R, G)`, and not `(G, B, R) = 0x22, 0x33, 0x11`. -/
theorem setPixel_GBR_stores_BRG :
    (((StableWS2811.construct 3 (fun _ => 0) (fun _ => 0) WS2811_GRB).setPixel 0
        0x112233).pixelBuf 0 = 0x22 ∧
     ((StableWS2811.construct 3 (fun _ => 0) (fun _ => 0) WS2811_GRB).setPixel 0
        0x112233).pixelBuf 1 = 0x11 ∧
     ((StableWS2811.construct 3 (fun _ => 0) (fun _ => 0) WS2811_GRB).setPixel 0
        0x112233).pixelBuf 2 = 0x33) ∧
    (((StableWS2811.construct 3 (fun _ => 0) (fun _ => 0) WS2811_GBR).setPixel 0
        0x112233).pixelBuf 0 = 0x33 ∧
     ((StableWS2811.construct 3 (fun _ => 0) (fun _ => 0) WS2811_GBR).setPixel 0
        0x112233).pixelBuf 1 = 0x11 ∧
     ((StableWS2811.construct 3 (fun _ => 0) (fun _ => 0) WS2811_GBR).setPixel 0
        0x112233).pixelBuf 2 = 0x22) ∧
    ¬ (((StableWS2811.construct 3 (fun _ => 0) (fun _ => 0) WS2811_GBR).setPixel 0
        0x112233).pixelBuf 0 = 0x22 ∧
     ((StableWS2811.construct 3 (fun _ => 0) (fun _ => 0) WS2811_GBR).setPixel 0
        0x112233).pixelBuf 1 = 0x33 ∧
     ((StableWS2811.construct 3 (fun _ => 0) (fun _ => 0) WS2811_GBR).setPixel 0
        0x112233).pixelBuf 2 = 0x11) := by
  decide

/-- C10: when the channel-order field `config & 0x0f` is none of the four defined values,
`setPixel(i, c)` changes no byte of the Pixel Store and `getPixel(i)` returns 0 whatever the
store holds, so `getPixel(i)` after `setPixel(i, c)` differs from every non-zero `c`. -/
theorem undefined_order_accessors (s : StableWS2811)
    (h : s.config &&& WS2811_COLOR_MASK ∉ [WS2811_RGB, WS2811_RBG, WS2811_GRB, WS2811_GBR])
    (i : Nat) (c : Int) :
    (s.setPixel i c).pixelBuf = s.pixelBuf ∧
    s.getPixel i = 0 ∧
    (c ≠ 0 → (s.setPixel i c).getPixel i ≠ c) := by
  have hs := StableWS2811.setPixel_other s i c h
  have hg := StableWS2811.getPixel_other s i h
  refine ⟨by rw [hs], hg, fun hc => ?_⟩
  rw [hs, hg]
  exact fun e => hc e.symm

/-- Witness for C10: configuration byte `0x14` (order field 4) on a store full of `0x5A`. -/
theorem undefined_order_accessors_witness :
    ((StableWS2811.construct 2 (fun _ => 0) (fun _ => 0x5A) 0x14).setPixel 1 0x112233).pixelBuf
      = (fun _ => 0x5A) ∧
    (StableWS2811.construct 2 (fun _ => 0) (fun _ => 0x5A) 0x14).getPixel 1 = 0 ∧
    ((StableWS2811.construct 2 (fun _ => 0) (fun _ => 0x5A) 0x14).setPixel 1 0x112233).getPixel 1
      ≠ 0x112233 :=
  ⟨(undefined_order_accessors (StableWS2811.construct 2 (fun _ => 0) (fun _ => 0x5A) 0x14)
      (by decide) 1 0x112233).1,
   (undefined_order_accessors (StableWS2811.construct 2 (fun _ => 0) (fun _ => 0x5A) 0x14)
      (by decide) 1 0x112233).2.1,
   (undefined_order_accessors (StableWS2811.construct 2 (fun _ => 0) (fun _ => 0x5A) 0x14)
      (by decide) 1 0x112233).2.2 (by decide)⟩

/-! ### Busy query -/

/-- C7: `busy()` returns 1 exactly when `update_in_progress` is non-zero or the unsigned
32-bit difference `(t - update_completed_at) mod 2 ^ 32` is below 50, and returns 0 in every
other case. In particular, when the completion was recorded at real time `Tc` and the query
is made at real time `T`, with `Tc ≤ T < Tc + 2 ^ 32` (the 32-bit counter may have wrapped
in between), the difference is the true elapsed time `T - Tc`. -/
theorem busy_iff (g : Statics) (t : Nat) :
    (StableWS2811.busy g t = 1 ↔
      (g.update_in_progress ≠ 0 ∨
        ((t : Int) - (g.update_completed_at : Int)) % 2 ^ 32 < 50)) ∧
    (StableWS2811.busy g t ≠ 1 → StableWS2811.busy g t = 0) ∧
    (∀ Tc T : Nat, Tc ≤ T → T < Tc + 2 ^ 32 → g.update_completed_at = micros Tc →
      u32_sub (micros T) g.update_completed_at = T - Tc ∧
      (StableWS2811.busy g (micros T) = 1 ↔ (g.update_in_progress ≠ 0 ∨ T - Tc < 50))) := by
  have key : ∀ x : Nat, StableWS2811.busy g x = 1 ↔
      (g.update_in_progress ≠ 0 ∨ u32_sub x g.update_completed_at < 50) := by
    intro x
    unfold StableWS2811.busy
    by_cases h1 : g.update_in_progress ≠ 0
    · simp [h1]
    · by_cases h2 : u32_sub x g.update_completed_at < 50
      · simp [h1, h2]
      · simp [h1, h2]
  refine ⟨?_, ?_, ?_⟩
  · rw [key]
    unfold u32_sub
    constructor
    · rintro (h | h)
      · exact Or.inl h
      · right; omega
    · rintro (h | h)
      · exact Or.inl h
      · right; omega
  · unfold StableWS2811.busy
    intro h
    split_ifs at h ⊢ <;> first | rfl | exact absurd rfl h
  · intro Tc T hle hlt hc
    have hs : u32_sub (micros T) g.update_completed_at = T - Tc := by
      rw [hc]
      unfold u32_sub micros
      omega
    refine ⟨hs, ?_⟩
    rw [key, hs]

/-- Witness for C7: the completion is recorded 10 microseconds before the counter wraps;
15 microseconds later (counter value 5) the strip is still busy, 55 microseconds later
(counter value 45) it is not. -/
theorem busy_iff_witness :
    StableWS2811.busy { zero := 0, update_in_progress := 0, update_completed_at := 4294967286 }
      (micros 4294967301) = 1 ∧
    StableWS2811.busy { zero := 0, update_in_progress := 0, update_completed_at := 4294967286 }
      (micros 4294967341) ≠ 1 :=
  ⟨((busy_iff { zero := 0, update_in_progress := 0, update_completed_at := 4294967286 }
      0).2.2 4294967286 4294967301 (by decide) (by decide) rfl).2.mpr (Or.inr (by decide)),
   fun h =>
    (((busy_iff { zero := 0, update_in_progress := 0, update_completed_at := 4294967286 }
      0).2.2 4294967286 4294967341 (by decide) (by decide) rfl).2.mp h).elim
      (fun h1 => h1 rfl) (fun h2 => absurd h2 (by decide))⟩

/-! ### Strip length and buffer set-up -/

namespace StableWS2811

lemma begin_fill_outside (n i : Nat) (spiBuf : Nat → Nat) (k : Nat)
    (hk : k < i ∨ i + n ≤ k) : begin_fill n i spiBuf k = spiBuf k := by
  induction n generalizing i spiBuf with
  | zero => rfl
  | succ n ih =>
    simp only [begin_fill]
    rw [ih _ _ (by omega), Function.update_noteq (by omega)]

lemma begin_fill_inside (n i : Nat) (spiBuf : Nat → Nat) (k : Nat)
    (h1 : i ≤ k) (h2 : k < i + n) : begin_fill n i spiBuf k = SPI_PUSHR_DATA 0 := by
  induction n generalizing i spiBuf with
  | zero => omega
  | succ n ih =>
    simp only [begin_fill]
    by_cases hk : k = i
    · rw [begin_fill_outside _ _ _ _ (by omega), hk, Function.update_same]
    · exact ih _ _ (by omega) (by omega)

lemma setStripLen_stripLenMax (s : StableWS2811) (n : Nat) :
    (s.setStripLen n).stripLenMax = s.stripLenMax := by
  unfold setStripLen
  split_ifs <;> rfl

lemma setStripLen_stripLen (s : StableWS2811) (n : Nat) :
    (s.setStripLen n).stripLen = min n s.stripLenMax := by
  unfold setStripLen
  split_ifs with h
  · simp only; omega
  · simp only; omega

/-- What a sequence of `setStripLen` calls preserves. -/
lemma foldl_setStripLen (ns : List Nat) (s : StableWS2811) (h : s.stripLen ≤ s.stripLenMax) :
    (ns.foldl setStripLen s).stripLenMax = s.stripLenMax ∧
    (ns.foldl setStripLen s).stripLen ≤ s.stripLenMax := by
  induction ns generalizing s with
  | nil => exact ⟨rfl, h⟩
  | cons n ns ih =>
    have hm := setStripLen_stripLenMax s n
    have hl := setStripLen_stripLen s n
    have := ih (s.setStripLen n) (by rw [hm, hl]; omega)
    rw [hm] at this
    exact this

lemma GET_RGB_zero (pixelBuf : Nat → uint8_t) (pix r g b : Nat)
    (hr : pixelBuf (pix + r) = 0) (hg : pixelBuf (pix + g) = 0) (hb : pixelBuf (pix + b) = 0) :
    GET_RGB pixelBuf pix r g b = 0 := by
  unfold GET_RGB
  rw [hr, hg, hb]
  rfl

end StableWS2811

/-- C8: an object constructed with capacity `M` reports `numPixels() = M`; after any
sequence of `setStripLen` calls a further `setStripLen(n)` makes `numPixels()` return
`min(n, M)`; in every state reached that way `stripLen ≤ stripLenMax` and `stripLenMax = M`;
and neither the encode step of `show` nor the buffer set-up of `begin` changes a Transfer
Buffer word with index at least `6 * M` or a Pixel Store byte with index at least `3 * M`. -/
theorem stripLen_bounded (M : Nat) (spiBuf : Nat → Nat) (pixelBuf : Nat → uint8_t)
    (config : Nat) (ns : List Nat) (n : Nat) (g : Statics) :
    (StableWS2811.construct M spiBuf pixelBuf config).numPixels = (M : Int) ∧
    ((ns.foldl StableWS2811.setStripLen
      (StableWS2811.construct M spiBuf pixelBuf config)).setStripLen n).numPixels
        = ((min n M : Nat) : Int) ∧
    (ns.foldl StableWS2811.setStripLen
      (StableWS2811.construct M spiBuf pixelBuf config)).stripLen ≤
    (ns.foldl StableWS2811.setStripLen
      (StableWS2811.construct M spiBuf pixelBuf config)).stripLenMax ∧
    (ns.foldl StableWS2811.setStripLen
      (StableWS2811.construct M spiBuf pixelBuf config)).stripLenMax = M ∧
    3 * (ns.foldl StableWS2811.setStripLen
      (StableWS2811.construct M spiBuf pixelBuf config)).stripLen ≤ 3 * M ∧
    6 * (ns.foldl StableWS2811.setStripLen
      (StableWS2811.construct M spiBuf pixelBuf config)).stripLen ≤ 6 * M ∧
    (∀ k, 6 * M ≤ k →
      (ns.foldl StableWS2811.setStripLen
        (StableWS2811.construct M spiBuf pixelBuf config)).show_encode.spiBuf k =
      (ns.foldl StableWS2811.setStripLen
        (StableWS2811.construct M spiBuf pixelBuf config)).spiBuf k ∧
      ((ns.foldl StableWS2811.setStripLen
        (StableWS2811.construct M spiBuf pixelBuf config)).begin g).1.spiBuf k =
      (ns.foldl StableWS2811.setStripLen
        (StableWS2811.construct M spiBuf pixelBuf config)).spiBuf k) ∧
    (∀ k, 3 * M ≤ k →
      (ns.foldl StableWS2811.setStripLen
        (StableWS2811.construct M spiBuf pixelBuf config)).show_encode.pixelBuf k =
      (ns.foldl StableWS2811.setStripLen
        (StableWS2811.construct M spiBuf pixelBuf config)).pixelBuf k ∧
      ((ns.foldl StableWS2811.setStripLen
        (StableWS2811.construct M spiBuf pixelBuf config)).begin g).1.pixelBuf k =
      (ns.foldl StableWS2811.setStripLen
        (StableWS2811.construct M spiBuf pixelBuf config)).pixelBuf k) := by
  obtain ⟨hmax, hlen⟩ := StableWS2811.foldl_setStripLen ns
    (StableWS2811.construct M spiBuf pixelBuf config) (Nat.le_refl M)
  generalize ns.foldl StableWS2811.setStripLen
    (StableWS2811.construct M spiBuf pixelBuf config) = s at hmax hlen ⊢
  have hmax' : s.stripLenMax = M := hmax
  have hlen' : s.stripLen ≤ M := hlen
  refine ⟨rfl, ?_, by omega, hmax', by omega, by omega, ?_, ?_⟩
  · unfold StableWS2811.numPixels
    rw [StableWS2811.setStripLen_stripLen, hmax']
  · intro k hk
    constructor
    · exact StableWS2811.encode_loop_outside s.pixelBuf (s.stripLen * 3)
        { pix := 0, spi := 0, spiBuf := s.spiBuf } k (by simp only; omega)
    · exact StableWS2811.begin_fill_outside (s.stripLen * 6) 0 s.spiBuf k (by omega)
  · intro k hk
    refine ⟨rfl, ?_⟩
    show StableWS2811.memset_zero s.pixelBuf (s.stripLen * 3) k = s.pixelBuf k
    unfold StableWS2811.memset_zero
    rw [if_neg (by omega)]

/-- Witness for C8: capacity 3, calls `setStripLen(2)`, `setStripLen(9)`, then
`setStripLen(7)`: `numPixels()` is 3, and word 18 survives `show`. -/
theorem stripLen_bounded_witness :
    (((([2, 9] : List Nat).foldl StableWS2811.setStripLen
      (StableWS2811.construct 3 (fun _ => 7) (fun _ => 1) WS2811_GRB)).setStripLen 7).numPixels
        = 3) ∧
    (([2, 9] : List Nat).foldl StableWS2811.setStripLen
      (StableWS2811.construct 3 (fun _ => 7) (fun _ => 1) WS2811_GRB)).show_encode.spiBuf 18
        = 7 :=
  ⟨(stripLen_bounded 3 (fun _ => 7) (fun _ => 1) WS2811_GRB [2, 9] 7 (Statics.initial 0)).2.1,
   ((stripLen_bounded 3 (fun _ => 7) (fun _ => 1) WS2811_GRB [2, 9] 7
      (Statics.initial 0)).2.2.2.2.2.2.1 18 (by decide)).1⟩

/-- C9: after the buffer set-up of `begin()` with active length `N = stripLen`, every Pixel
Store byte below `3 * N` is 0, `getPixel(i)` returns 0 for every `i < N` (whatever the
configuration byte, so under each of the four channel orders), every Transfer Buffer word
below `6 * N` is `SPI_PUSHR_DATA(0)`, which is the control tag with an all-zero 12-bit
payload, and the idle channel's source word `zero` holds that same word. -/
theorem begin_buffers (s : StableWS2811) (g : Statics) :
    (∀ k, k < 3 * s.stripLen → (s.begin g).1.pixelBuf k = 0) ∧
    (∀ i, i < s.stripLen → (s.begin g).1.getPixel i = 0) ∧
    (∀ k, k < 6 * s.stripLen → (s.begin g).1.spiBuf k = SPI_PUSHR_DATA 0) ∧
    (s.begin g).2.zero = SPI_PUSHR_DATA 0 ∧
    SPI_PUSHR_DATA 0 = (SPI_PUSHR_CONT ||| SPI_PUSHR_CTAS 0) ∧
    SPI_PUSHR_DATA 0 % 2 ^ 12 = 0 ∧
    SPI_PUSHR_DATA 0 >>> 12 = 2 ^ 19 := by
  have hz : ∀ k, k < 3 * s.stripLen → (s.begin g).1.pixelBuf k = 0 := by
    intro k hk
    show StableWS2811.memset_zero s.pixelBuf (s.stripLen * 3) k = 0
    unfold StableWS2811.memset_zero
    rw [if_pos (by omega)]
  refine ⟨hz, ?_, ?_, rfl, by decide, by decide, by decide⟩
  · intro i hi
    have hp : i * 3 % 4294967296 ≤ i * 3 := Nat.mod_le _ _
    have z := fun r (hr : r ≤ 2) => hz (i * 3 % 4294967296 + r) (by omega)
    by_cases h : (s.begin g).1.config &&& WS2811_COLOR_MASK ∈
        [WS2811_RGB, WS2811_RBG, WS2811_GRB, WS2811_GBR]
    · simp only [List.mem_cons, List.mem_singleton, List.not_mem_nil, or_false] at h
      rcases h with h | h | h | h
      · rw [StableWS2811.getPixel_RGB _ _ h]
        exact StableWS2811.GET_RGB_zero _ _ _ _ _ (z 0 (by omega)) (z 1 (by omega))
          (z 2 (by omega))
      · rw [StableWS2811.getPixel_RBG _ _ h]
        exact StableWS2811.GET_RGB_zero _ _ _ _ _ (z 0 (by omega)) (z 2 (by omega))
          (z 1 (by omega))
      · rw [StableWS2811.getPixel_GRB _ _ h]
        exact StableWS2811.GET_RGB_zero _ _ _ _ _ (z 1 (by omega)) (z 0 (by omega))
          (z 2 (by omega))
      · rw [StableWS2811.getPixel_GBR _ _ h]
        exact StableWS2811.GET_RGB_zero _ _ _ _ _ (z 1 (by omega)) (z 2 (by omega))
          (z 0 (by omega))
    · exact StableWS2811.getPixel_other _ _ h
  · intro k hk
    exact StableWS2811.begin_fill_inside (s.stripLen * 6) 0 s.spiBuf k (by omega) (by omega)

/-- Witness for C9: capacity 2, buffers full of non-zero values before `begin()`. -/
theorem begin_buffers_witness :
    ((StableWS2811.construct 2 (fun _ => 7) (fun _ => 0x5A) WS2811_GRB).begin
      (Statics.initial 3)).1.pixelBuf 5 = 0 ∧
    ((StableWS2811.construct 2 (fun _ => 7) (fun _ => 0x5A) WS2811_GRB).begin
      (Statics.initial 3)).1.getPixel 1 = 0 ∧
    ((StableWS2811.construct 2 (fun _ => 7) (fun _ => 0x5A) WS2811_GRB).begin
      (Statics.initial 3)).1.spiBuf 11 = 0x80000000 :=
  ⟨(begin_buffers (StableWS2811.construct 2 (fun _ => 7) (fun _ => 0x5A) WS2811_GRB)
      (Statics.initial 3)).1 5 (by decide),
   (begin_buffers (StableWS2811.construct 2 (fun _ => 7) (fun _ => 0x5A) WS2811_GRB)
      (Statics.initial 3)).2.1 1 (by decide),
   (begin_buffers (StableWS2811.construct 2 (fun _ => 7) (fun _ => 0x5A) WS2811_GRB)
      (Statics.initial 3)).2.2.1 11 (by decide)⟩

/-! ### Settle time between transfers -/

lemma Machine.start_inv (dev : StableWS2811) (z t0 : Nat) : (Machine.start dev z t0).Inv := by
  refine ⟨?_, ?_, ?_, ?_⟩
  · intro h; cases h
  · intro _; rfl
  · intro tc h; cases h
  · intro h; cases h

lemma Machine.step_inv (m : Machine) (e : Event) (h : m.Inv) : (m.step e).Inv := by
  obtain ⟨h1, h2, h3, h4⟩ := h
  cases e with
  | tick d =>
    refine ⟨h1, h2, ?_, ?_⟩
    · intro tc hc
      obtain ⟨a, b⟩ := h3 tc hc
      exact ⟨Nat.le_trans a (Nat.le_add_right _ _), b⟩
    · intro hp tc hc
      exact Nat.le_trans (h4 hp tc hc) (Nat.le_add_right _ _)
  | dma_done =>
    by_cases hen : m.ch1_enabled = true
    · have hs : m.step Event.dma_done =
          { m with g := dma_ch1_isr m.g (micros m.now), ch1_enabled := false,
                   completed := some m.now } := by
        simp only [Machine.step, hen, if_true]
      rw [hs]
      have hpc : ¬ (m.pc = ShowPc.encode ∨ m.pc = ShowPc.wait_reset ∨ m.pc = ShowPc.arm) :=
        fun hp => h1 hen (h2 hp)
      refine ⟨?_, ?_, ?_, ?_⟩
      · intro h; cases h
      · intro _; rfl
      · intro tc hc
        simp only [Option.some.injEq] at hc
        subst hc
        exact ⟨Nat.le_refl _, rfl⟩
      · intro hp
        exact absurd (Or.inr (Or.inr hp)) hpc
    · have hs : m.step Event.dma_done = m := by
        simp only [Machine.step, hen]
        rfl
      rw [hs]
      exact ⟨h1, h2, h3, h4⟩
  | cpu =>
    show (m.cpu_step).Inv
    obtain ⟨dev, g, now, pc, en, comp⟩ := m
    cases pc with
    | idle =>
      refine ⟨h1, ?_, h3, ?_⟩
      · intro hp; simp [Machine.cpu_step] at hp
      · intro hp; simp [Machine.cpu_step] at hp
    | wait_dma =>
      by_cases hb : g.update_in_progress ≠ 0
      · have hs : Machine.cpu_step ⟨dev, g, now, ShowPc.wait_dma, en, comp⟩ =
            ⟨dev, g, now, ShowPc.wait_dma, en, comp⟩ := by
          simp only [Machine.cpu_step]
          exact if_pos hb
        rw [hs]
        exact ⟨h1, h2, h3, h4⟩
      · have hs : Machine.cpu_step ⟨dev, g, now, ShowPc.wait_dma, en, comp⟩ =
            ⟨dev, g, now, ShowPc.encode, en, comp⟩ := by
          simp only [Machine.cpu_step]
          exact if_neg hb
        rw [hs]
        refine ⟨h1, ?_, h3, ?_⟩
        · intro _
          simpa using hb
        · intro hp; cases hp
    | encode =>
      refine ⟨h1, ?_, h3, ?_⟩
      · intro _
        exact h2 (Or.inl rfl)
      · intro hp; simp [Machine.cpu_step] at hp
    | wait_reset =>
      by_cases hb : u32_sub (micros now) g.update_completed_at < 50
      · have hs : Machine.cpu_step ⟨dev, g, now, ShowPc.wait_reset, en, comp⟩ =
            ⟨dev, g, now, ShowPc.wait_reset, en, comp⟩ := by
          simp only [Machine.cpu_step]
          exact if_pos hb
        rw [hs]
        exact ⟨h1, h2, h3, h4⟩
      · have hs : Machine.cpu_step ⟨dev, g, now, ShowPc.wait_reset, en, comp⟩ =
            ⟨dev, g, now, ShowPc.arm, en, comp⟩ := by
          simp only [Machine.cpu_step]
          exact if_neg hb
        rw [hs]
        refine ⟨h1, ?_, h3, ?_⟩
        · intro _
          exact h2 (Or.inr (Or.inl rfl))
        · intro _ tc hc
          obtain ⟨a, b⟩ := h3 tc hc
          simp only at a b hb
          rw [b] at hb
          unfold u32_sub micros at hb
          show tc + 50 ≤ now
          omega
    | arm =>
      refine ⟨?_, ?_, h3, ?_⟩
      · intro _
        simp [Machine.cpu_step]
      · intro hp; simp [Machine.cpu_step] at hp
      · intro hp; simp [Machine.cpu_step] at hp

lemma Machine.run_inv (evs : List Event) (m : Machine) (h : m.Inv) : (m.run evs).Inv := by
  induction evs generalizing m with
  | nil => exact h
  | cons e evs ih => exact ih (m.step e) (Machine.step_inv m e h)

/-- The flag `update_in_progress` goes from zero to non-zero only in the arming step. -/
lemma Machine.arming_step (m : Machine) (e : Event) (h0 : m.g.update_in_progress = 0)
    (h1 : (m.step e).g.update_in_progress ≠ 0) : m.pc = ShowPc.arm := by
  cases e with
  | tick d => exact absurd h0 h1
  | dma_done =>
    by_cases hen : m.ch1_enabled = true
    · simp [Machine.step, hen, dma_ch1_isr] at h1
    · simp [Machine.step, hen] at h1
      exact absurd h0 h1
  | cpu =>
    obtain ⟨dev, g, now, pc, en, comp⟩ := m
    cases pc with
    | idle => exact absurd h0 h1
    | wait_dma =>
      simp only [Machine.step, Machine.cpu_step] at h1
      split_ifs at h1 <;> exact absurd h0 h1
    | encode => exact absurd h0 h1
    | wait_reset =>
      simp only [Machine.step, Machine.cpu_step] at h1
      split_ifs at h1 <;> exact absurd h0 h1
    | arm => rfl

/-- C6: in every state `m` that the timing model reaches from its start, for every next
event `e`: if the step arms a transfer (takes `update_in_progress` from zero to non-zero)
and the interrupt handler has recorded a completion at real time `tc`, then
`update_completed_at` is the counter value recorded at `tc` and at least 50 microseconds
have passed since `tc`; and if the step leaves the settle wait of `show`, then
`(micros() - update_completed_at) mod 2 ^ 32 ≥ 50` at that moment. -/
theorem settle_enforced (dev : StableWS2811) (z t0 : Nat) (evs : List Event) (e : Event) :
    (∀ tc, ((Machine.start dev z t0).run evs).g.update_in_progress = 0 →
      (((Machine.start dev z t0).run evs).step e).g.update_in_progress ≠ 0 →
      ((Machine.start dev z t0).run evs).completed = some tc →
      ((Machine.start dev z t0).run evs).g.update_completed_at = micros tc ∧
      tc + 50 ≤ ((Machine.start dev z t0).run evs).now) ∧
    (((Machine.start dev z t0).run evs).pc = ShowPc.wait_reset →
      (((Machine.start dev z t0).run evs).step e).pc ≠ ShowPc.wait_reset →
      50 ≤ ((micros ((Machine.start dev z t0).run evs).now : Int) -
        (((Machine.start dev z t0).run evs).g.update_completed_at : Int)) % 2 ^ 32) := by
  have hinv := Machine.run_inv evs (Machine.start dev z t0) (Machine.start_inv dev z t0)
  generalize (Machine.start dev z t0).run evs = m at hinv ⊢
  obtain ⟨_, _, h3, h4⟩ := hinv
  constructor
  · intro tc h0 h1 hc
    have hp := Machine.arming_step m e h0 h1
    exact ⟨(h3 tc hc).2, h4 hp tc hc⟩
  · intro hp hq
    cases e with
    | tick d => exact absurd hp hq
    | dma_done =>
      by_cases hen : m.ch1_enabled = true
      · simp [Machine.step, hen] at hq
        exact absurd hp hq
      · simp [Machine.step, hen] at hq
        exact absurd hp hq
    | cpu =>
      obtain ⟨dev, g, now, pc, en, comp⟩ := m
      simp only at hp
      subst hp
      by_cases hb : u32_sub (micros now) g.update_completed_at < 50
      · have hs : Machine.step ⟨dev, g, now, ShowPc.wait_reset, en, comp⟩ Event.cpu =
            ⟨dev, g, now, ShowPc.wait_reset, en, comp⟩ := by
          simp only [Machine.step, Machine.cpu_step]
          exact if_pos hb
        rw [hs] at hq
        exact absurd rfl hq
      · unfold u32_sub at hb
        show 50 ≤ ((micros now : Int) - (g.update_completed_at : Int)) % 2 ^ 32
        omega

/-- Witness for C6: the first transfer completes 46 microseconds before the 32-bit counter
wraps; the second `show` polls after 40 microseconds (and stays in the settle wait) and
again after 50 microseconds (counter value 4), when it leaves the wait and arms. -/
theorem settle_enforced_witness :
    ((Machine.start (StableWS2811.construct 1 (fun _ => 0) (fun _ => 0) WS2811_GRB) 0
        4294967200).run
      [Event.cpu, Event.cpu, Event.cpu, Event.cpu, Event.cpu, Event.tick 50, Event.dma_done,
       Event.cpu, Event.cpu, Event.cpu, Event.tick 40, Event.cpu, Event.tick 10,
       Event.cpu]).g.update_completed_at = micros 4294967250 ∧
    4294967250 + 50 ≤
    ((Machine.start (StableWS2811.construct 1 (fun _ => 0) (fun _ => 0) WS2811_GRB) 0
        4294967200).run
      [Event.cpu, Event.cpu, Event.cpu, Event.cpu, Event.cpu, Event.tick 50, Event.dma_done,
       Event.cpu, Event.cpu, Event.cpu, Event.tick 40, Event.cpu, Event.tick 10,
       Event.cpu]).now :=
  (settle_enforced (StableWS2811.construct 1 (fun _ => 0) (fun _ => 0) WS2811_GRB) 0
    4294967200
    [Event.cpu, Event.cpu, Event.cpu, Event.cpu, Event.cpu, Event.tick 50, Event.dma_done,
     Event.cpu, Event.cpu, Event.cpu, Event.tick 40, Event.cpu, Event.tick 10, Event.cpu]
    Event.cpu).1 4294967250 (by decide) (by decide) (by decide)
